import Mathlib

/-
  Shallow embedding of the `unblind` diagram editor core
  (src/types/node.ts, src/types/connector.ts, src/types/canvas.ts,
   src/utils/dragUtils.ts, src/hooks/useEndpointDrag.ts, src/types/log.ts).

  JavaScript numbers are modelled as rationals (ℚ); `Date` timestamps and
  `metadata` records are omitted (no claim mentions them).  JavaScript `Map`
  objects are modelled as insertion-ordered association lists and `Set`
  objects as insertion-ordered duplicate-free lists, matching ES Map/Set
  iteration-order semantics.
-/

namespace Unblind

/-- JS `Map.get`: value of the entry with the given key. -/
def mget {α : Type} (m : List (String × α)) (k : String) : Option α :=
  (m.find? (fun e => e.1 == k)).map Prod.snd

/-- JS `Map.has`. -/
def mhas {α : Type} (m : List (String × α)) (k : String) : Bool :=
  (m.find? (fun e => e.1 == k)).isSome

/-- JS `Map.set`: replace the value in place when the key exists, else append. -/
def mset {α : Type} (m : List (String × α)) (k : String) (v : α) : List (String × α) :=
  if mhas m k then m.map (fun e => if e.1 == k then (k, v) else e) else m ++ [(k, v)]

/-- JS `Map.delete` (dropping the returned boolean). -/
def mdel {α : Type} (m : List (String × α)) (k : String) : List (String × α) :=
  m.filter (fun e => e.1 != k)

/-- JS `Set.add`: append when absent. -/
def sadd (s : List String) (x : String) : List String :=
  if x ∈ s then s else s ++ [x]

/-- JS `Set.delete` (dropping the returned boolean). -/
def sdel (s : List String) (x : String) : List String :=
  s.filter (fun e => e != x)

/-- JS `Set.has`. -/
def shas (s : List String) (x : String) : Bool :=
  s.contains x

/-- JS `Math.round` on rationals: round half toward positive infinity. -/
def jsRound (q : ℚ) : ℚ :=
  (⌊q + 1/2⌋ : ℤ)

structure Position where
  x : ℚ
  y : ℚ
deriving DecidableEq, Repr

structure Size where
  width : ℚ
  height : ℚ
deriving DecidableEq, Repr

inductive NodeType where
  | rectangle
  | circle
  | diamond
  | text
deriving DecidableEq, Repr

/-- `DiagramNode` from src/types/node.ts (timestamps and metadata omitted). -/
structure DiagramNode where
  id : String
  title : String
  position : Position
  size : Size
  type : NodeType
  selected : Bool
  color : String
  description : Option String
deriving DecidableEq, Repr

namespace DiagramNode

/-- The `DiagramNode` constructor. -/
def new (id : String) (title : String) (position : Position)
    (type : NodeType := NodeType.rectangle)
    (size : Size := { width := 120, height := 60 }) : DiagramNode :=
  { id := id, title := title, position := position, size := size, type := type,
    selected := false, color := "#3b82f6", description := none }

def updatePosition (n : DiagramNode) (newPosition : Position) : DiagramNode :=
  { n with position := newPosition }

def updateSize (n : DiagramNode) (newSize : Size) : DiagramNode :=
  { n with size := newSize }

def updateTitle (n : DiagramNode) (newTitle : String) : DiagramNode :=
  { n with title := newTitle }

def updateId (n : DiagramNode) (newId : String) : DiagramNode :=
  { n with id := newId }

def select (n : DiagramNode) : DiagramNode :=
  { n with selected := true }

def deselect (n : DiagramNode) : DiagramNode :=
  { n with selected := false }

def getCenter (n : DiagramNode) : Position :=
  { x := n.position.x + n.size.width / 2, y := n.position.y + n.size.height / 2 }

def containsPoint (n : DiagramNode) (point : Position) : Bool :=
  decide (point.x ≥ n.position.x ∧ point.x ≤ n.position.x + n.size.width ∧
          point.y ≥ n.position.y ∧ point.y ≤ n.position.y + n.size.height)

/-- `clone()`: builds a fresh node whose id is `this.id + '_copy'`, then copies
    the presentational fields. -/
def clone (n : DiagramNode) : DiagramNode :=
  { DiagramNode.new (n.id ++ "_copy") n.title n.position n.type n.size with
    selected := n.selected, color := n.color, description := n.description }

end DiagramNode

inductive ConnectionSide where
  | top
  | right
  | bottom
  | left
deriving DecidableEq, Repr

structure ConnectionPoint where
  nodeId : String
  side : ConnectionSide
  offset : ℚ
  absolutePosition : Option Position
deriving DecidableEq, Repr

inductive ConnectorType where
  | straight
  | curved
  | orthogonal
  | bezier
deriving DecidableEq, Repr

structure ConnectorStyle where
  color : String
  width : ℚ
  dashPattern : Option (List ℚ)
  arrowStart : Bool
  arrowEnd : Bool
  opacity : ℚ
deriving DecidableEq, Repr

/-- `DiagramConnector` from src/types/connector.ts (timestamps and metadata omitted). -/
structure DiagramConnector where
  id : String
  startPoint : ConnectionPoint
  endPoint : ConnectionPoint
  type : ConnectorType
  style : ConnectorStyle
  selected : Bool
  label : Option String
deriving DecidableEq, Repr

namespace DiagramConnector

/-- The `DiagramConnector` constructor (absolute positions start unset). -/
def new (id : String) (startNodeId : String) (endNodeId : String)
    (startSide : ConnectionSide := ConnectionSide.right)
    (endSide : ConnectionSide := ConnectionSide.left)
    (startOffset : ℚ := 1/2) (endOffset : ℚ := 1/2) : DiagramConnector :=
  { id := id,
    startPoint := { nodeId := startNodeId, side := startSide, offset := startOffset,
                    absolutePosition := none },
    endPoint := { nodeId := endNodeId, side := endSide, offset := endOffset,
                  absolutePosition := none },
    type := ConnectorType.straight,
    style := { color := "#6b7280", width := 2, dashPattern := none,
               arrowStart := false, arrowEnd := true, opacity := 1 },
    selected := false, label := none }

/-- Replaces the whole start point object, so the cached absolute position is dropped. -/
def updateStartPoint (c : DiagramConnector) (nodeId : String) (side : ConnectionSide)
    (offset : ℚ) : DiagramConnector :=
  { c with startPoint := { nodeId := nodeId, side := side, offset := offset,
                           absolutePosition := none } }

def updateEndPoint (c : DiagramConnector) (nodeId : String) (side : ConnectionSide)
    (offset : ℚ) : DiagramConnector :=
  { c with endPoint := { nodeId := nodeId, side := side, offset := offset,
                         absolutePosition := none } }

def select (c : DiagramConnector) : DiagramConnector :=
  { c with selected := true }

def deselect (c : DiagramConnector) : DiagramConnector :=
  { c with selected := false }

def isConnectedToNode (c : DiagramConnector) (nodeId : String) : Bool :=
  c.startPoint.nodeId == nodeId || c.endPoint.nodeId == nodeId

/-- `clone()`: rebuilds through the constructor with id `this.id + '_copy'`
    (the endpoint node ids, sides and offsets survive; cached absolute
    positions do not), then copies type, style, selected and label. -/
def clone (c : DiagramConnector) : DiagramConnector :=
  { DiagramConnector.new (c.id ++ "_copy") c.startPoint.nodeId c.endPoint.nodeId
      c.startPoint.side c.endPoint.side c.startPoint.offset c.endPoint.offset with
    type := c.type, style := c.style, selected := c.selected, label := c.label }

end DiagramConnector

namespace ConnectionUtils

/-- `ConnectionUtils.calculateConnectionPoint` from src/types/connector.ts. -/
def calculateConnectionPoint (nodePosition : Position) (nodeSize : Size)
    (side : ConnectionSide) (offset : ℚ) : Position :=
  match side with
  | ConnectionSide.top => { x := nodePosition.x + nodeSize.width * offset, y := nodePosition.y }
  | ConnectionSide.right => { x := nodePosition.x + nodeSize.width,
                              y := nodePosition.y + nodeSize.height * offset }
  | ConnectionSide.bottom => { x := nodePosition.x + nodeSize.width * offset,
                               y := nodePosition.y + nodeSize.height }
  | ConnectionSide.left => { x := nodePosition.x, y := nodePosition.y + nodeSize.height * offset }

/-- `ConnectionUtils.getClosestSide` from src/types/connector.ts. -/
def getClosestSide (fromPosition : Position) (toNodePosition : Position)
    (toNodeSize : Size) : ConnectionSide :=
  let nodeCenter : Position :=
    { x := toNodePosition.x + toNodeSize.width / 2,
      y := toNodePosition.y + toNodeSize.height / 2 }
  let dx := fromPosition.x - nodeCenter.x
  let dy := fromPosition.y - nodeCenter.y
  let absX := |dx|
  let absY := |dy|
  if absX > absY then
    (if dx > 0 then ConnectionSide.left else ConnectionSide.right)
  else
    (if dy > 0 then ConnectionSide.top else ConnectionSide.bottom)

end ConnectionUtils

inductive LogActionKind where
  | highlight
  | focus
  | annotate
  | trace
  | pulse
deriving DecidableEq, Repr

/-- `LogHighlightStyle` from src/types/log.ts. -/
structure LogHighlightStyle where
  type : LogActionKind
  style : Option String
  color : Option String
  animation : Bool
deriving DecidableEq, Repr

/-- `LogAction` from src/types/log.ts; the `id` field is `string | string[]`.
    `annot` models the `annotation` text field read by `applyLogActions`. -/
structure LogAction where
  id : Sum String (List String)
  group : Option String := none
  action : LogActionKind
  style : Option String := none
  annot : Option String := none
deriving DecidableEq, Repr

/-- `ProcessedLogAction` (only the two derived fields are consumed downstream). -/
structure ProcessedLogAction where
  targetIds : List String
  highlightStyle : LogHighlightStyle
deriving DecidableEq, Repr

structure ViewportState where
  zoom : ℚ
  panX : ℚ
  panY : ℚ
  width : ℚ
  height : ℚ
deriving DecidableEq, Repr

/-- Grid settings; `snapEnabled` models the source's `snapToGrid` flag (renamed
    here to avoid clashing with the canvas method of the same name). -/
structure GridSettings where
  enabled : Bool
  size : ℚ
  color : String
  opacity : ℚ
  snapEnabled : Bool
deriving DecidableEq, Repr

structure CanvasSettings where
  backgroundColor : String
  grid : GridSettings
  defaultNodeSize : Size
  selectionColor : String
  selectionWidth : ℚ
deriving DecidableEq, Repr

structure SelectionState where
  selectedNodes : List String
  selectedConnectors : List String
  multiSelect : Bool
deriving DecidableEq, Repr

/-- One history entry: a snapshot of both entity maps. -/
structure HistoryEntry where
  nodes : List (String × DiagramNode)
  connectors : List (String × DiagramConnector)
deriving DecidableEq, Repr

/-- The `DiagramCanvas` aggregate state from src/types/canvas.ts. -/
structure DiagramCanvas where
  nodes : List (String × DiagramNode)
  connectors : List (String × DiagramConnector)
  viewport : ViewportState
  selection : SelectionState
  settings : CanvasSettings
  history : List HistoryEntry
  historyIndex : Int
  maxHistorySize : Int
  logHighlights : List (String × LogHighlightStyle)
  logAnnotations : List (String × String)
deriving DecidableEq, Repr

namespace DiagramCanvas

/-- The `DiagramCanvas(width, height)` constructor. -/
def new (width : ℚ) (height : ℚ) : DiagramCanvas :=
  { nodes := [], connectors := [],
    viewport := { zoom := 1, panX := 0, panY := 0, width := width, height := height },
    selection := { selectedNodes := [], selectedConnectors := [], multiSelect := false },
    settings :=
      { backgroundColor := "#ffffff",
        grid := { enabled := true, size := 20, color := "#e5e7eb", opacity := 1/2,
                  snapEnabled := true },
        defaultNodeSize := { width := 120, height := 60 },
        selectionColor := "#3b82f6", selectionWidth := 2 },
    history := [], historyIndex := -1, maxHistorySize := 50,
    logHighlights := [], logAnnotations := [] }

def snapToGrid (c : DiagramCanvas) (position : Position) : Position :=
  if ¬ c.settings.grid.snapEnabled then position
  else
    let gridSize := c.settings.grid.size
    { x := jsRound (position.x / gridSize) * gridSize,
      y := jsRound (position.y / gridSize) * gridSize }

/-- `saveToHistory()`: truncate redo tail, push a cloned snapshot, bump the
    index, evict the oldest entry when over the cap. -/
def saveToHistory (c : DiagramCanvas) : DiagramCanvas :=
  let truncated := c.history.take (c.historyIndex + 1).toNat
  let snapshot : HistoryEntry :=
    { nodes := c.nodes.map (fun e => (e.1, e.2.clone)),
      connectors := c.connectors.map (fun e => (e.1, e.2.clone)) }
  let pushed := truncated ++ [snapshot]
  let bumped := c.historyIndex + 1
  if (pushed.length : Int) > c.maxHistorySize then
    { c with history := pushed.drop 1, historyIndex := bumped - 1 }
  else
    { c with history := pushed, historyIndex := bumped }

def addNode (c : DiagramCanvas) (node : DiagramNode) : DiagramCanvas :=
  saveToHistory { c with nodes := mset c.nodes node.id node }

def getNode (c : DiagramCanvas) (nodeId : String) : Option DiagramNode :=
  mget c.nodes nodeId

def getAllNodes (c : DiagramCanvas) : List DiagramNode :=
  c.nodes.map Prod.snd

/-- `removeNode`: cascade-delete every connector `isConnectedToNode(nodeId)`
    by its `connector.id`, then the node, then the selection entry, then snapshot. -/
def removeNode (c : DiagramCanvas) (nodeId : String) : Bool × DiagramCanvas :=
  match mget c.nodes nodeId with
  | none => (false, c)
  | some _ =>
    let connectorsToRemove :=
      ((c.connectors.map Prod.snd).filter (fun k => k.isConnectedToNode nodeId)).map
        (fun k => k.id)
    let connectors2 := connectorsToRemove.foldl (fun m i => mdel m i) c.connectors
    (true, saveToHistory
      { c with
        nodes := mdel c.nodes nodeId
        connectors := connectors2
        selection :=
          { c.selection with selectedNodes := sdel c.selection.selectedNodes nodeId } })

/-- `updateConnectorPositions(nodeId)` (private): refresh cached absolute
    positions of every endpoint attached to the node. -/
def updateConnectorPositions (c : DiagramCanvas) (nodeId : String) : DiagramCanvas :=
  { c with connectors := c.connectors.map (fun e =>
      let k := e.2
      let k1 :=
        if k.startPoint.nodeId == nodeId then
          match mget c.nodes nodeId with
          | some node =>
            let p := ConnectionUtils.calculateConnectionPoint node.position node.size
              k.startPoint.side k.startPoint.offset
            { k with startPoint := { k.startPoint with absolutePosition := some p } }
          | none => k
        else k
      let k2 :=
        if k1.endPoint.nodeId == nodeId then
          match mget c.nodes nodeId with
          | some node =>
            let p := ConnectionUtils.calculateConnectionPoint node.position node.size
              k1.endPoint.side k1.endPoint.offset
            { k1 with endPoint := { k1.endPoint with absolutePosition := some p } }
          | none => k1
        else k1
      (e.1, k2)) }

/-- `moveNode`: snap, update the node in place, recompute attached endpoints.
    Does not snapshot. -/
def moveNode (c : DiagramCanvas) (nodeId : String) (newPosition : Position) :
    Bool × DiagramCanvas :=
  match mget c.nodes nodeId with
  | none => (false, c)
  | some node =>
    let snappedPosition := c.snapToGrid newPosition
    let c2 := { c with nodes := mset c.nodes nodeId (node.updatePosition snappedPosition) }
    (true, c2.updateConnectorPositions nodeId)

/-- `updateNodeId`: rekey the node map, rewrite connector endpoints, migrate
    the node selection set, snapshot.  (Log highlight / annotation maps are
    left untouched.) -/
def updateNodeId (c : DiagramCanvas) (oldId : String) (newId : String) :
    Bool × DiagramCanvas :=
  match mget c.nodes oldId with
  | none => (false, c)
  | some node =>
    if mhas c.nodes newId then (false, c)
    else
      let node2 := node.updateId newId
      let nodes2 := mset (mdel c.nodes oldId) newId node2
      let connectors2 := c.connectors.map (fun e =>
        let k := e.2
        let k1 := if k.startPoint.nodeId == oldId then
            { k with startPoint := { k.startPoint with nodeId := newId } } else k
        let k2 := if k1.endPoint.nodeId == oldId then
            { k1 with endPoint := { k1.endPoint with nodeId := newId } } else k1
        (e.1, k2))
      let selectedNodes2 :=
        if shas c.selection.selectedNodes oldId then
          sadd (sdel c.selection.selectedNodes oldId) newId
        else c.selection.selectedNodes
      (true, saveToHistory
        { c with
          nodes := nodes2
          connectors := connectors2
          selection := { c.selection with selectedNodes := selectedNodes2 } })

def addConnector (c : DiagramCanvas) (connector : DiagramConnector) : DiagramCanvas :=
  saveToHistory { c with connectors := mset c.connectors connector.id connector }

/-- `updateConnectorId`: rekey, migrate the connector selection set and the
    `logHighlights` entry, snapshot.  (`logAnnotations` is left untouched.) -/
def updateConnectorId (c : DiagramCanvas) (oldId : String) (newId : String) :
    Bool × DiagramCanvas :=
  match mget c.connectors oldId with
  | none => (false, c)
  | some connector =>
    if mhas c.connectors newId then (false, c)
    else
      let connector2 := { connector with id := newId }
      let connectors2 := mset (mdel c.connectors oldId) newId connector2
      let selectedConnectors2 :=
        if shas c.selection.selectedConnectors oldId then
          sadd (sdel c.selection.selectedConnectors oldId) newId
        else c.selection.selectedConnectors
      let logHighlights2 :=
        if mhas c.logHighlights oldId then
          match mget c.logHighlights oldId with
          | some highlight => mset (mdel c.logHighlights oldId) newId highlight
          | none => mdel c.logHighlights oldId
        else c.logHighlights
      (true, saveToHistory
        { c with
          connectors := connectors2
          selection := { c.selection with selectedConnectors := selectedConnectors2 }
          logHighlights := logHighlights2 })

def removeConnector (c : DiagramCanvas) (connectorId : String) : Bool × DiagramCanvas :=
  if mhas c.connectors connectorId then
    (true, saveToHistory
      { c with
        connectors := mdel c.connectors connectorId
        selection := { c.selection with
          selectedConnectors := sdel c.selection.selectedConnectors connectorId } })
  else (false, c)

def getConnector (c : DiagramCanvas) (connectorId : String) : Option DiagramConnector :=
  mget c.connectors connectorId

def getAllConnectors (c : DiagramCanvas) : List DiagramConnector :=
  c.connectors.map Prod.snd

/-- `createConnector`: null when either node is missing; otherwise infer the
    omitted sides through `getClosestSide` and add the connector.  `freshId`
    stands for the runtime-generated id string. -/
def createConnector (c : DiagramCanvas) (startNodeId : String) (endNodeId : String)
    (startSide : Option ConnectionSide) (endSide : Option ConnectionSide)
    (freshId : String) : Option DiagramConnector × DiagramCanvas :=
  match mget c.nodes startNodeId, mget c.nodes endNodeId with
  | some startNode, some endNode =>
    let autoStartSide := startSide.getD
      (ConnectionUtils.getClosestSide endNode.getCenter startNode.position startNode.size)
    let autoEndSide := endSide.getD
      (ConnectionUtils.getClosestSide startNode.getCenter endNode.position endNode.size)
    let connector := DiagramConnector.new freshId startNodeId endNodeId
      autoStartSide autoEndSide
    (some connector, c.addConnector connector)
  | _, _ => (none, c)

/-- One pass of `clearSelection()`'s forEach loop: look the id up in the map
    and, when present, write back the deselected entity (`upd` is the in-place
    `deselect()` mutation). -/
def deselectPass {α : Type} (upd : α → α) (m : List (String × α)) (k : String) :
    List (String × α) :=
  match mget m k with
  | some v => mset m k (upd v)
  | none => m

/-- `clearSelection()`: deselect every selected node and connector in place,
    then empty both selection sets. -/
def clearSelection (c : DiagramCanvas) : DiagramCanvas :=
  let nodes2 := c.selection.selectedNodes.foldl
    (deselectPass DiagramNode.deselect) c.nodes
  let connectors2 := c.selection.selectedConnectors.foldl
    (deselectPass DiagramConnector.deselect) c.connectors
  { c with
    nodes := nodes2
    connectors := connectors2
    selection := { c.selection with selectedNodes := [], selectedConnectors := [] } }

/-- `selectNode`: clears the prior selection first (when not multi-selecting),
    and only then looks the node up. -/
def selectNode (c : DiagramCanvas) (nodeId : String) (multiSelect : Bool := false) :
    DiagramCanvas :=
  let c1 := if ¬ multiSelect then c.clearSelection else c
  match mget c1.nodes nodeId with
  | some node =>
    { c1 with
      nodes := mset c1.nodes nodeId node.select
      selection := { c1.selection with
        selectedNodes := sadd c1.selection.selectedNodes nodeId } }
  | none => c1

def selectConnector (c : DiagramCanvas) (connectorId : String)
    (multiSelect : Bool := false) : DiagramCanvas :=
  let c1 := if ¬ multiSelect then c.clearSelection else c
  match mget c1.connectors connectorId with
  | some connector =>
    { c1 with
      connectors := mset c1.connectors connectorId connector.select
      selection := { c1.selection with
        selectedConnectors := sadd c1.selection.selectedConnectors connectorId } }
  | none => c1

def deselectNode (c : DiagramCanvas) (nodeId : String) : DiagramCanvas :=
  match mget c.nodes nodeId with
  | some node =>
    { c with
      nodes := mset c.nodes nodeId node.deselect
      selection := { c.selection with
        selectedNodes := sdel c.selection.selectedNodes nodeId } }
  | none => c

def deselectConnector (c : DiagramCanvas) (connectorId : String) : DiagramCanvas :=
  match mget c.connectors connectorId with
  | some connector =>
    { c with
      connectors := mset c.connectors connectorId connector.deselect
      selection := { c.selection with
        selectedConnectors := sdel c.selection.selectedConnectors connectorId } }
  | none => c

def getSelectedNodes (c : DiagramCanvas) : List DiagramNode :=
  (c.selection.selectedNodes.filterMap (fun i => mget c.nodes i))

def getSelectedConnectors (c : DiagramCanvas) : List DiagramConnector :=
  (c.selection.selectedConnectors.filterMap (fun i => mget c.connectors i))

def canUndo (c : DiagramCanvas) : Bool :=
  decide (c.historyIndex > 0)

def canRedo (c : DiagramCanvas) : Bool :=
  decide (c.historyIndex < (c.history.length : Int) - 1)

/-- `undo()`: step the index back, restore clone-of-clones of the snapshot,
    clear the selection.  The `none` branch is unreachable while the index
    stays within the history bounds. -/
def undo (c : DiagramCanvas) : Bool × DiagramCanvas :=
  if c.canUndo then
    let i := c.historyIndex - 1
    match c.history.get? i.toNat with
    | some state =>
      (true, clearSelection
        { c with
          historyIndex := i
          nodes := state.nodes.map (fun e => (e.1, e.2.clone))
          connectors := state.connectors.map (fun e => (e.1, e.2.clone)) })
    | none => (true, { c with historyIndex := i })
  else (false, c)

def redo (c : DiagramCanvas) : Bool × DiagramCanvas :=
  if c.canRedo then
    let i := c.historyIndex + 1
    match c.history.get? i.toNat with
    | some state =>
      (true, clearSelection
        { c with
          historyIndex := i
          nodes := state.nodes.map (fun e => (e.1, e.2.clone))
          connectors := state.connectors.map (fun e => (e.1, e.2.clone)) })
    | none => (true, { c with historyIndex := i })
  else (false, c)

end DiagramCanvas

/-- The object produced by `toJSON` (entity maps as ordered entry lists). -/
structure JSONData where
  nodes : List (String × DiagramNode)
  connectors : List (String × DiagramConnector)
  viewport : ViewportState
  settings : CanvasSettings
deriving DecidableEq, Repr

namespace DiagramCanvas

def toJSON (c : DiagramCanvas) : JSONData :=
  { nodes := c.nodes, connectors := c.connectors,
    viewport := c.viewport, settings := c.settings }

/-- `fromJSON`'s node rebuild: `new DiagramNode(...)` then `Object.assign(node, nodeData)`,
    which overwrites every stored field with the serialized one. -/
def rebuildNode (nodeData : DiagramNode) : DiagramNode :=
  { DiagramNode.new nodeData.id nodeData.title nodeData.position nodeData.type
      nodeData.size with
    selected := nodeData.selected
    color := nodeData.color
    description := nodeData.description }

/-- `fromJSON`'s connector rebuild: constructor call followed by `Object.assign`,
    which also restores the full endpoint objects (cached positions included). -/
def rebuildConnector (connectorData : DiagramConnector) : DiagramConnector :=
  { DiagramConnector.new connectorData.id connectorData.startPoint.nodeId
      connectorData.endPoint.nodeId connectorData.startPoint.side
      connectorData.endPoint.side connectorData.startPoint.offset
      connectorData.endPoint.offset with
    startPoint := connectorData.startPoint
    endPoint := connectorData.endPoint
    type := connectorData.type
    style := connectorData.style
    selected := connectorData.selected
    label := connectorData.label }

/-- `fromJSON`: clear both maps, rebuild every entry, replace viewport and
    settings, clear selection, push one fresh history snapshot. -/
def fromJSON (c : DiagramCanvas) (data : JSONData) : DiagramCanvas :=
  let nodes2 := data.nodes.foldl (fun m e => mset m e.1 (rebuildNode e.2)) []
  let connectors2 := data.connectors.foldl (fun m e => mset m e.1 (rebuildConnector e.2)) []
  let c2 :=
    { c with
      nodes := nodes2
      connectors := connectors2
      viewport := data.viewport
      settings := data.settings }
  saveToHistory c2.clearSelection

/-- `processLogAction` (private): normalize the id field to an array and build
    the highlight style; the freshly built style never carries a color, so the
    per-keyword default always applies. -/
def processLogAction (action : LogAction) : ProcessedLogAction :=
  let targetIds := match action.id with
    | Sum.inl single => [single]
    | Sum.inr many => many
  let defaultColor : String := match action.style with
    | some "success" => "#22c55e"
    | some "error" => "#ef4444"
    | some "warning" => "#f59e0b"
    | some "active" => "#3b82f6"
    | some "context" => "#6b7280"
    | some "destination" => "#8b5cf6"
    | some "path" => "#06b6d4"
    | _ => "#3b82f6"
  { targetIds := targetIds
    highlightStyle :=
      { type := action.action
        style := action.style
        color := some defaultColor
        animation := decide (action.action = LogActionKind.pulse ∨
                             action.action = LogActionKind.trace) } }

def clearLogHighlights (c : DiagramCanvas) : DiagramCanvas :=
  { c with logHighlights := [] }

def clearLogAnnotations (c : DiagramCanvas) : DiagramCanvas :=
  { c with logAnnotations := [] }

def getLogHighlights (c : DiagramCanvas) : List (String × LogHighlightStyle) :=
  c.logHighlights

def getLogAnnotations (c : DiagramCanvas) : List (String × String) :=
  c.logAnnotations

/-- One pass of `applyLogActions`'s inner forEach over target ids: record the
    processed highlight style under the id, and — for an `annotate` action with
    a truthy (non-empty) annotation text — also record the text. -/
def applyActionTo (action : LogAction) (highlightStyle : LogHighlightStyle)
    (acc : DiagramCanvas) (i : String) : DiagramCanvas :=
  let acc3 := { acc with logHighlights := mset acc.logHighlights i highlightStyle }
  match action.annot with
  | some text =>
    if action.action = LogActionKind.annotate ∧ text ≠ "" then
      { acc3 with logAnnotations := mset acc3.logAnnotations i text }
    else acc3
  | none => acc3

/-- `applyLogActions`: clear both overlay maps, then record every processed
    action's style (and any annotation text) against each of its target ids. -/
def applyLogActions (c : DiagramCanvas) (actions : List LogAction) : DiagramCanvas :=
  let c0 := c.clearLogHighlights.clearLogAnnotations
  actions.foldl (fun acc action =>
    let processedAction := processLogAction action
    processedAction.targetIds.foldl
      (applyActionTo action processedAction.highlightStyle) acc) c0

end DiagramCanvas

namespace dragUtils

/-- `getNodeAtPosition` from src/utils/dragUtils.ts: first node whose
    skirt-padded bounds contain the position. -/
def getNodeAtPosition (nodes : List DiagramNode) (position : Position)
    (skirtPadding : ℚ := 16) : Option DiagramNode :=
  nodes.find? (fun node =>
    decide (position.x ≥ node.position.x - skirtPadding ∧
            position.x ≤ node.position.x - skirtPadding +
              (node.size.width + skirtPadding * 2) ∧
            position.y ≥ node.position.y - skirtPadding ∧
            position.y ≤ node.position.y - skirtPadding +
              (node.size.height + skirtPadding * 2)))

end dragUtils

namespace useEndpointDrag

inductive EndpointKind where
  | startPt
  | endPt
deriving DecidableEq, Repr

/-- The transient state held by the endpoint-drag hook (the fields consumed by
    `handleEndpointDrop`). -/
structure EndpointDragState where
  isDragging : Bool
  connectorId : Option String
  endpointType : Option EndpointKind
  originalConnectionPoint : Option (ConnectionSide × ℚ)
deriving DecidableEq, Repr

/-- The hook-local `calculateConnectionPoint(node, dropPosition)`: quadrant
    mapping of a drop point to a `(side, offset)` pair with the offset clamped
    to `[0, 1]`. -/
def calculateConnectionPoint (node : DiagramNode) (dropPosition : Position) :
    ConnectionSide × ℚ :=
  let nodeCenter : Position :=
    { x := node.position.x + node.size.width / 2
      y := node.position.y + node.size.height / 2 }
  let relativeX := dropPosition.x - nodeCenter.x
  let relativeY := dropPosition.y - nodeCenter.y
  let absX := |relativeX|
  let absY := |relativeY|
  if absX > absY then
    let offset := max 0 (min 1 ((dropPosition.y - node.position.y) / node.size.height))
    if relativeX > 0 then (ConnectionSide.right, offset)
    else (ConnectionSide.left, offset)
  else
    let offset := max 0 (min 1 ((dropPosition.x - node.position.x) / node.size.width))
    if relativeY > 0 then (ConnectionSide.bottom, offset)
    else (ConnectionSide.top, offset)

/-- `handleEndpointDrop`: reattach to the hit node's skirt, or delete the
    dragged connector when no node is hit.  (The source's `if (newConnectionPoint)`
    null-check can never fail, since the quadrant mapping always returns a
    value, so its else-branch is dead code.) -/
def handleEndpointDrop (canvas : DiagramCanvas) (state : EndpointDragState)
    (nodes : List DiagramNode) (mousePosition : Position) : DiagramCanvas :=
  match state.connectorId, state.endpointType with
  | some connectorId, some endpointType =>
    match canvas.getConnector connectorId with
    | none => canvas
    | some connector =>
      match dragUtils.getNodeAtPosition nodes mousePosition with
      | some targetNode =>
        let newConnectionPoint := calculateConnectionPoint targetNode mousePosition
        let connector2 := match endpointType with
          | EndpointKind.startPt =>
            connector.updateStartPoint targetNode.id newConnectionPoint.1
              newConnectionPoint.2
          | EndpointKind.endPt =>
            connector.updateEndPoint targetNode.id newConnectionPoint.1
              newConnectionPoint.2
        let canvas2 := { canvas with connectors := mset canvas.connectors connectorId connector2 }
        (canvas2.moveNode targetNode.id targetNode.position).2
      | none => (canvas.removeConnector connectorId).2
  | _, _ => canvas

end useEndpointDrag

/-! ### Concrete test fixtures -/

/-- A rectangle node "a" at (100, 100) with the default 120×60 size. -/
def nodeA : DiagramNode := DiagramNode.new "a" "A" { x := 100, y := 100 }

/-- A rectangle node "b" at (300, 200) with the default 120×60 size. -/
def nodeB : DiagramNode := DiagramNode.new "b" "B" { x := 300, y := 200 }

/-- A freshly constructed 800×600 canvas. -/
def canvas0 : DiagramCanvas := DiagramCanvas.new 800 600

/-- The canvas after `addNode(nodeA); addNode(nodeB)`. -/
def canvasAB : DiagramCanvas := (canvas0.addNode nodeA).addNode nodeB

/-- `canvasAB` after `createConnector("a", "b")` producing connector "c1". -/
def canvasABC1 : DiagramCanvas := (canvasAB.createConnector "a" "b" none none "c1").2

/-- `canvasABC1` after one `undo()` followed by one `redo()`. -/
def canvasAfterRedo : DiagramCanvas := ((canvasABC1.undo).2.redo).2

/-- `canvasAB` after `selectNode("a")`. -/
def canvasSel : DiagramCanvas := canvasAB.selectNode "a" false

/-- `canvasAB` after log actions that highlight and annotate the node "a". -/
def canvasHL : DiagramCanvas := canvasAB.applyLogActions
  [{ id := Sum.inl "a", action := LogActionKind.highlight, style := some "success" },
   { id := Sum.inl "a", action := LogActionKind.annotate, annot := some "note" }]

/-- An endpoint-drag state holding connector "c1" by its `end` point. -/
def dragStateC1End : useEndpointDrag.EndpointDragState :=
  { isDragging := true, connectorId := some "c1",
    endpointType := some useEndpointDrag.EndpointKind.endPt,
    originalConnectionPoint := none }

/-- The style keywords with a dedicated default color in `processLogAction`'s
    switch; anything else hits the `default` case. -/
def knownLogStyles : List String :=
  ["success", "error", "warning", "active", "context", "destination", "path"]

/-! ### Basic lemmas about the Map/Set model -/

theorem mget_nil {α : Type} (k : String) : mget ([] : List (String × α)) k = none := rfl

theorem mhas_eq_isSome_mget {α : Type} (m : List (String × α)) (k : String) :
    mhas m k = (mget m k).isSome := by
  unfold mhas mget
  cases m.find? (fun e => e.1 == k) <;> rfl

theorem mget_none_of_mhas_false {α : Type} {m : List (String × α)} {k : String}
    (h : mhas m k = false) : mget m k = none := by
  rw [mhas_eq_isSome_mget] at h
  cases hm : mget m k
  · rfl
  · rw [hm] at h; simp at h

theorem mhas_false_of_mget_none {α : Type} {m : List (String × α)} {k : String}
    (h : mget m k = none) : mhas m k = false := by
  rw [mhas_eq_isSome_mget, h]; rfl

theorem mget_cons {α : Type} (a : String × α) (t : List (String × α)) (k : String) :
    mget (a :: t) k = if a.1 == k then some a.2 else mget t k := by
  unfold mget
  rcases ha : (a.1 == k) with _ | _
  · rw [List.find?_cons_of_neg _ (by simp [ha]), if_neg (by simp [ha])]
  · rw [List.find?_cons_of_pos _ (by simp [ha]), if_pos (by simp_all)]
    rfl

theorem mhas_cons {α : Type} (a : String × α) (t : List (String × α)) (k : String) :
    mhas (a :: t) k = (a.1 == k || mhas t k) := by
  rw [mhas_eq_isSome_mget, mhas_eq_isSome_mget, mget_cons]
  rcases ha : (a.1 == k) with _ | _ <;> simp

theorem mget_map_set {α : Type} (m : List (String × α)) (k : String) (v : α) :
    mget (m.map (fun e => if e.1 == k then (k, v) else e)) k =
      if mhas m k then some v else none := by
  induction m with
  | nil => rfl
  | cons a t ih =>
    rw [List.map_cons, mget_cons, mhas_cons]
    rcases ha : (a.1 == k) with _ | _
    · simp only [ha, Bool.false_eq_true, if_false, Bool.false_or]
      rw [ih]
    · simp only [ha, if_true, Bool.true_or]
      rw [if_pos (by simp)]

theorem mget_map_set_ne {α : Type} (m : List (String × α)) (k k' : String) (v : α)
    (hne : k' ≠ k) :
    mget (m.map (fun e => if e.1 == k then (k, v) else e)) k' = mget m k' := by
  induction m with
  | nil => rfl
  | cons a t ih =>
    rw [List.map_cons, mget_cons, mget_cons]
    rcases ha : (a.1 == k) with _ | _
    · simp only [ha, Bool.false_eq_true, if_false]
      exact if_congr Iff.rfl rfl ih
    · have hak : a.1 = k := by simpa using ha
      simp only [ha, if_true]
      rw [if_neg (by simp [Ne.symm hne]), if_neg (by simp [hak, Ne.symm hne])]
      exact ih

theorem mget_append_single {α : Type} (m : List (String × α)) (k k' : String) (v : α) :
    mget (m ++ [(k, v)]) k' =
      match mget m k' with
      | some w => some w
      | none => if k == k' then some v else none := by
  induction m with
  | nil =>
    rw [List.nil_append, mget_nil, mget_cons, mget_nil]
  | cons a t ih =>
    rw [List.cons_append, mget_cons, mget_cons]
    by_cases hak : a.1 = k'
    · rw [if_pos (by simp [hak]), if_pos (by simp [hak])]
    · rw [if_neg (by simp [hak]), if_neg (by simp [hak])]
      exact ih

theorem mget_mset_self {α : Type} (m : List (String × α)) (k : String) (v : α) :
    mget (mset m k v) k = some v := by
  unfold mset
  by_cases h : mhas m k = true
  · rw [if_pos h, mget_map_set, if_pos h]
  · rw [if_neg h, mget_append_single]
    have hn : mget m k = none := mget_none_of_mhas_false (by simpa using h)
    rw [hn]
    simp

theorem mget_mset_ne {α : Type} (m : List (String × α)) (k k' : String) (v : α)
    (hne : k' ≠ k) : mget (mset m k v) k' = mget m k' := by
  unfold mset
  by_cases h : mhas m k = true
  · rw [if_pos h, mget_map_set_ne _ _ _ _ hne]
  · rw [if_neg h, mget_append_single]
    cases hm : mget m k'
    · simp [Ne.symm hne]
    · rfl

theorem mget_mdel_self {α : Type} (m : List (String × α)) (k : String) :
    mget (mdel m k) k = none := by
  unfold mdel
  induction m with
  | nil => rfl
  | cons a t ih =>
    rcases ha : (a.1 == k) with _ | _
    · rw [List.filter_cons_of_pos (by simp [bne, ha]), mget_cons, ha, if_neg (by simp)]
      exact ih
    · rw [List.filter_cons_of_neg (by simp [bne, ha])]
      exact ih

theorem mget_mdel_ne {α : Type} (m : List (String × α)) (k k' : String) (hne : k' ≠ k) :
    mget (mdel m k) k' = mget m k' := by
  unfold mdel
  induction m with
  | nil => rfl
  | cons a t ih =>
    rcases ha : (a.1 == k) with _ | _
    · rw [List.filter_cons_of_pos (by simp [bne, ha]), mget_cons, mget_cons]
      exact if_congr Iff.rfl rfl ih
    · have hak : a.1 = k := by simpa using ha
      rw [List.filter_cons_of_neg (by simp [bne, ha]), mget_cons,
        if_neg (by simp [hak, Ne.symm hne])]
      exact ih

theorem mem_sadd_iff (s : List String) (x y : String) : y ∈ sadd s x ↔ (y ∈ s ∨ y = x) := by
  unfold sadd
  by_cases h : x ∈ s
  · rw [if_pos h]
    constructor
    · exact Or.inl
    · rintro (hy | rfl)
      · exact hy
      · exact h
  · rw [if_neg h]
    simp

theorem mem_sdel_iff (s : List String) (x y : String) : y ∈ sdel s x ↔ (y ∈ s ∧ y ≠ x) := by
  simp [sdel, List.mem_filter]

theorem mdel_eq_self_of_mget_none {α : Type} {m : List (String × α)} {k : String}
    (h : mget m k = none) : mdel m k = m := by
  unfold mdel
  induction m with
  | nil => rfl
  | cons a t ih =>
    rw [mget_cons] at h
    rcases ha : (a.1 == k) with _ | _
    · rw [ha, if_neg (by simp)] at h
      rw [List.filter_cons_of_pos (by simp [bne, ha])]
      rw [ih h]
    · rw [ha] at h; simp at h

theorem mset_of_mhas_false {α : Type} {m : List (String × α)} {k : String} (v : α)
    (h : mhas m k = false) : mset m k v = m ++ [(k, v)] := by
  unfold mset
  rw [if_neg (by simp [h])]

theorem mhas_append_single {α : Type} (m : List (String × α)) (k k' : String) (v : α) :
    mhas (m ++ [(k, v)]) k' = (mhas m k' || k == k') := by
  rw [mhas_eq_isSome_mget, mhas_eq_isSome_mget, mget_append_single]
  cases mget m k' <;> cases hk : (k == k') <;> simp [hk]

theorem keys_map_set {α : Type} (m : List (String × α)) (k : String) (v : α) :
    (m.map (fun e => if e.1 == k then (k, v) else e)).map Prod.fst = m.map Prod.fst := by
  induction m with
  | nil => rfl
  | cons a t ih =>
    rcases hb : (a.1 == k) with _ | _
    · simp only [List.map_cons, hb, Bool.false_eq_true, if_false]
      rw [ih]
    · have hak : a.1 = k := by simpa using hb
      simp only [List.map_cons, hb, if_true]
      rw [ih, hak]

theorem keys_mset_of_mhas {α : Type} {m : List (String × α)} {k : String} (v : α)
    (h : mhas m k = true) : (mset m k v).map Prod.fst = m.map Prod.fst := by
  unfold mset
  rw [if_pos h, keys_map_set]

theorem eq_of_mem_of_mget_nodup {α : Type} (k : String) (v : α) :
    ∀ (m : List (String × α)), (m.map Prod.fst).Nodup → mget m k = some v →
      ∀ e ∈ m, e.1 = k → e = (k, v) := by
  intro m
  induction m with
  | nil => intro _ _ e he; cases he
  | cons a t ih =>
    intro hnd hget e he hek
    rw [List.map_cons, List.nodup_cons] at hnd
    rw [mget_cons] at hget
    rcases List.mem_cons.mp he with rfl | he
    · rw [if_pos (by simp [hek])] at hget
      rw [Prod.ext_iff]
      exact ⟨hek, by injection hget⟩
    · by_cases hak : a.1 = k
      · exact absurd (by rw [hak, ← hek]; exact List.mem_map_of_mem Prod.fst he) hnd.1
      · rw [if_neg (by simp [hak])] at hget
        exact ih hnd.2 hget e he hek

theorem map_proj_mset_of_nodup {α β : Type} (proj : String × α → β) (upd : α → α)
    (hproj : ∀ k v, proj (k, upd v) = proj (k, v))
    {m : List (String × α)} {k : String} {v : α}
    (hnd : (m.map Prod.fst).Nodup) (hget : mget m k = some v) :
    (mset m k (upd v)).map proj = m.map proj := by
  unfold mset
  rw [if_pos (by rw [mhas_eq_isSome_mget, hget]; rfl)]
  rw [List.map_map]
  apply List.map_congr_left
  intro e he
  rcases hb : (e.1 == k) with _ | _
  · simp only [Function.comp_apply, hb, Bool.false_eq_true, if_false]
  · have hek : e.1 = k := by simpa using hb
    have heq : e = (k, v) := eq_of_mem_of_mget_nodup k v m hnd hget e he hek
    simp only [Function.comp_apply, hb, if_true]
    rw [heq, hproj]

/-- One pass of the `clearSelection` deselect loop preserves both the key list
    and any projection that ignores the updated component. -/
theorem deselStep_proj {α β : Type} (upd : α → α) (proj : String × α → β)
    (hproj : ∀ k v, proj (k, upd v) = proj (k, v))
    (m : List (String × α)) (a : String) (hnd : (m.map Prod.fst).Nodup) :
    ((DiagramCanvas.deselectPass upd m a).map proj = m.map proj ∧
     (DiagramCanvas.deselectPass upd m a).map Prod.fst = m.map Prod.fst) := by
  unfold DiagramCanvas.deselectPass
  cases hm : mget m a
  · exact ⟨rfl, rfl⟩
  · constructor
    · exact map_proj_mset_of_nodup proj upd hproj hnd hm
    · exact keys_mset_of_mhas _ (by rw [mhas_eq_isSome_mget, hm]; rfl)

/-- The whole `clearSelection` deselect loop preserves the key list and any
    projection that ignores the updated component. -/
theorem deselFold_proj {α β : Type} (upd : α → α) (proj : String × α → β)
    (hproj : ∀ k v, proj (k, upd v) = proj (k, v)) :
    ∀ (sel : List String) (m : List (String × α)), (m.map Prod.fst).Nodup →
      ((sel.foldl (DiagramCanvas.deselectPass upd) m).map proj = m.map proj ∧
       (sel.foldl (DiagramCanvas.deselectPass upd) m).map Prod.fst = m.map Prod.fst) := by
  intro sel
  induction sel with
  | nil => exact fun m _ => ⟨rfl, rfl⟩
  | cons a t ih =>
    intro m hnd
    rw [List.foldl_cons]
    have hstep := deselStep_proj upd proj hproj m a hnd
    have hnd2 : ((DiagramCanvas.deselectPass upd m a).map Prod.fst).Nodup := by
      rw [hstep.2]; exact hnd
    have hrec := ih _ hnd2
    exact ⟨hrec.1.trans hstep.1, hrec.2.trans hstep.2⟩

/-- A key absent from the map stays absent through the deselect loop. -/
theorem mget_deselFold_none {α : Type} (upd : α → α) :
    ∀ (sel : List String) (m : List (String × α)) (i : String), mget m i = none →
      mget (sel.foldl (DiagramCanvas.deselectPass upd) m) i = none := by
  intro sel
  induction sel with
  | nil => exact fun m i h => h
  | cons a t ih =>
    intro m i h
    rw [List.foldl_cons]
    apply ih
    unfold DiagramCanvas.deselectPass
    cases hm : mget m a
    · exact h
    · have hia : i ≠ a := by
        rintro rfl
        rw [h] at hm
        cases hm
      rw [mget_mset_ne _ _ _ _ hia]
      exact h

/-- Building a map by repeated `set` from the empty map reproduces a
    duplicate-free entry list. -/
theorem foldl_mset_eq_append {α : Type} :
    ∀ (l acc : List (String × α)), (∀ e ∈ l, mhas acc e.1 = false) →
      ((l.map Prod.fst).Nodup) →
      l.foldl (fun m e => mset m e.1 e.2) acc = acc ++ l := by
  intro l
  induction l with
  | nil => intro acc _ _; simp
  | cons e t ih =>
    intro acc hacc hnd
    rw [List.map_cons, List.nodup_cons] at hnd
    rw [List.foldl_cons, mset_of_mhas_false _ (hacc e (List.mem_cons_self e t))]
    have hacc2 : ∀ e2 ∈ t, mhas (acc ++ [e]) e2.1 = false := by
      intro e2 he2
      rw [show (e : String × α) = (e.1, e.2) from rfl, mhas_append_single]
      have h1 : mhas acc e2.1 = false := hacc e2 (List.mem_cons_of_mem e he2)
      have h2 : (e.1 == e2.1) = false := by
        have hne21 : e2.1 ≠ e.1 := by
          intro hcontra
          exact hnd.1 (by rw [← hcontra]; exact List.mem_map_of_mem Prod.fst he2)
        have hne12 : e.1 ≠ e2.1 := fun hcontra => hne21 hcontra.symm
        simp [hne12]
      rw [h1, h2]
      rfl
    rw [ih (acc ++ [e]) hacc2 hnd.2, List.append_assoc]
    rfl

/-! ### Field-preservation lemmas for history snapshotting -/

theorem saveToHistory_nodes (c : DiagramCanvas) : c.saveToHistory.nodes = c.nodes := by
  simp only [DiagramCanvas.saveToHistory]
  split <;> rfl

theorem saveToHistory_connectors (c : DiagramCanvas) :
    c.saveToHistory.connectors = c.connectors := by
  simp only [DiagramCanvas.saveToHistory]
  split <;> rfl

theorem saveToHistory_selection (c : DiagramCanvas) :
    c.saveToHistory.selection = c.selection := by
  simp only [DiagramCanvas.saveToHistory]
  split <;> rfl

theorem saveToHistory_logHighlights (c : DiagramCanvas) :
    c.saveToHistory.logHighlights = c.logHighlights := by
  simp only [DiagramCanvas.saveToHistory]
  split <;> rfl

theorem saveToHistory_logAnnotations (c : DiagramCanvas) :
    c.saveToHistory.logAnnotations = c.logAnnotations := by
  simp only [DiagramCanvas.saveToHistory]
  split <;> rfl

/-! ### Lemmas about the log-overlay fold -/

theorem applyActionTo_logHighlights (action : LogAction) (hs : LogHighlightStyle)
    (acc : DiagramCanvas) (j : String) :
    (DiagramCanvas.applyActionTo action hs acc j).logHighlights =
      mset acc.logHighlights j hs := by
  unfold DiagramCanvas.applyActionTo
  cases action.annot
  · rfl
  · dsimp only
    split <;> rfl

theorem mget_applyActionTo_fold_preserve (action : LogAction) (hs : LogHighlightStyle) :
    ∀ (ids : List String) (acc : DiagramCanvas) (i : String),
      mget acc.logHighlights i = some hs →
      mget ((ids.foldl (DiagramCanvas.applyActionTo action hs) acc).logHighlights) i =
        some hs := by
  intro ids
  induction ids with
  | nil => exact fun acc i h => h
  | cons a t ih =>
    intro acc i h
    rw [List.foldl_cons]
    apply ih
    rw [applyActionTo_logHighlights]
    by_cases hai : i = a
    · rw [hai, mget_mset_self]
    · rw [mget_mset_ne _ _ _ _ hai]
      exact h

theorem mget_applyActionTo_fold (action : LogAction) (hs : LogHighlightStyle) :
    ∀ (ids : List String) (acc : DiagramCanvas) (i : String), i ∈ ids →
      mget ((ids.foldl (DiagramCanvas.applyActionTo action hs) acc).logHighlights) i =
        some hs := by
  intro ids
  induction ids with
  | nil => intro acc i h; cases h
  | cons a t ih =>
    intro acc i h
    rw [List.foldl_cons]
    rcases List.mem_cons.mp h with rfl | ht
    · apply mget_applyActionTo_fold_preserve
      rw [applyActionTo_logHighlights, mget_mset_self]
    · exact ih _ i ht

/-! ### Rebuild lemmas for serialization -/

theorem rebuildNode_eq (d : DiagramNode) : DiagramCanvas.rebuildNode d = d := by
  cases d
  rfl

theorem rebuildConnector_eq (d : DiagramConnector) :
    DiagramCanvas.rebuildConnector d = d := by
  cases d
  rfl

/-! ### Claim theorems -/

/-- C2 counterexample: at the tie `|dx| = |dy|` (source point (2,2) against a
    2×2 node at the origin, so `dx = dy = 1`), `getClosestSide` returns `top`,
    not `left` or `right` — the tie falls into the vertical branch, refuting
    the claim that it falls into the horizontal branch. -/
theorem C2_tie_returns_top :
    ((2 : ℚ) - (0 + 2 / 2) = 1 ∧ (2 : ℚ) - (0 + 2 / 2) = 1) ∧
    ConnectionUtils.getClosestSide { x := 2, y := 2 } { x := 0, y := 0 }
      { width := 2, height := 2 } = ConnectionSide.top ∧
    ¬ (ConnectionUtils.getClosestSide { x := 2, y := 2 } { x := 0, y := 0 }
         { width := 2, height := 2 } = ConnectionSide.left ∨
       ConnectionUtils.getClosestSide { x := 2, y := 2 } { x := 0, y := 0 }
         { width := 2, height := 2 } = ConnectionSide.right) := by
  have h : ConnectionUtils.getClosestSide { x := 2, y := 2 } { x := 0, y := 0 }
      { width := 2, height := 2 } = ConnectionSide.top := by
    unfold ConnectionUtils.getClosestSide
    norm_num
  refine ⟨⟨by norm_num, by norm_num⟩, h, ?_⟩
  rw [h]
  decide

/-- C2 (amended): with `dx, dy` the signed offsets from the target node's
    center to the source point, `getClosestSide` returns `left`/`right` by the
    sign of `dx` when `|dx| > |dy|`, and `top`/`bottom` by the sign of `dy`
    when `|dx| < |dy|`; the tie `|dx| = |dy|` falls into the vertical branch
    (returning `top` or `bottom`), not the horizontal one. -/
theorem C2_getClosestSide_cases (fromPosition toNodePosition : Position)
    (toNodeSize : Size) :
    (|fromPosition.x - (toNodePosition.x + toNodeSize.width / 2)| >
       |fromPosition.y - (toNodePosition.y + toNodeSize.height / 2)| →
      ConnectionUtils.getClosestSide fromPosition toNodePosition toNodeSize =
        (if fromPosition.x - (toNodePosition.x + toNodeSize.width / 2) > 0
         then ConnectionSide.left else ConnectionSide.right)) ∧
    (|fromPosition.x - (toNodePosition.x + toNodeSize.width / 2)| <
       |fromPosition.y - (toNodePosition.y + toNodeSize.height / 2)| →
      ConnectionUtils.getClosestSide fromPosition toNodePosition toNodeSize =
        (if fromPosition.y - (toNodePosition.y + toNodeSize.height / 2) > 0
         then ConnectionSide.top else ConnectionSide.bottom)) ∧
    (|fromPosition.x - (toNodePosition.x + toNodeSize.width / 2)| =
       |fromPosition.y - (toNodePosition.y + toNodeSize.height / 2)| →
      ConnectionUtils.getClosestSide fromPosition toNodePosition toNodeSize =
        (if fromPosition.y - (toNodePosition.y + toNodeSize.height / 2) > 0
         then ConnectionSide.top else ConnectionSide.bottom)) := by
  unfold ConnectionUtils.getClosestSide
  refine ⟨fun h => ?_, fun h => ?_, fun h => ?_⟩
  · rw [if_pos h]
  · rw [if_neg (not_lt.mpr h.le)]
  · rw [if_neg (not_lt.mpr h.le)]

/-- C2 witness: the amended case split evaluated at the concrete source point
    (3, 0) against a 2×2 node at the origin, where `|dx| > |dy|` and `dx > 0`. -/
theorem C2_getClosestSide_cases_witness :
    ConnectionUtils.getClosestSide { x := 3, y := 0 } { x := 0, y := 0 }
      { width := 2, height := 2 } = ConnectionSide.left := by
  rw [(C2_getClosestSide_cases { x := 3, y := 0 } { x := 0, y := 0 }
        { width := 2, height := 2 }).1 (by norm_num)]
  norm_num

/-- C1: `undo()` does not restore nodes with their snapshot-time ids.  On a
    fresh canvas, after `addNode("a"); addNode("b")`, undoing succeeds and
    restores the map entry keyed "a", but the restored node object carries the
    id "a_copy_copy" (one "_copy" appended by the snapshot clone and one by the
    undo clone), not the id "a" it had when the snapshot was taken; position
    and size are restored faithfully and the selection is cleared. -/
theorem C1_undo_restores_mangled_ids :
    (canvasAB.undo).1 = true ∧
    ((canvasAB.undo).2.nodes.map (fun e => (e.1, e.2.id))) = [("a", "a_copy_copy")] ∧
    ((canvasAB.undo).2.nodes.map (fun e => e.2.position)) = [{ x := 100, y := 100 }] ∧
    (canvasAB.undo).2.selection.selectedNodes = [] ∧
    "a_copy_copy" ≠ "a" := by
  decide

/-- C5: the endpoint-referential invariant fails in reachable states.  First,
    after `addNode a; addNode b; createConnector(a,b); undo(); redo()`, the
    restored connector under key "c1" carries the mangled id "c1_copy_copy",
    so `removeNode("a")`'s cascade (which deletes by `connector.id`) misses it:
    the node "a" is gone but a connector whose start point references "a"
    survives.  Second, raw `addConnector` accepts a connector whose endpoints
    reference nodes absent from the canvas. -/
theorem C5_dangling_endpoints_reachable :
    ((canvasAfterRedo.removeNode "a").1 = true ∧
     mhas (canvasAfterRedo.removeNode "a").2.nodes "a" = false ∧
     ((canvasAfterRedo.removeNode "a").2.connectors.map
        (fun e => (e.1, e.2.startPoint.nodeId, e.2.endPoint.nodeId))) =
       [("c1", "a", "b")]) ∧
    (((canvas0.addConnector (DiagramConnector.new "k" "ghost1" "ghost2")).connectors.map
        (fun e => (e.2.startPoint.nodeId, e.2.endPoint.nodeId))) =
       [("ghost1", "ghost2")] ∧
     (canvas0.addConnector (DiagramConnector.new "k" "ghost1" "ghost2")).nodes = []) := by
  decide

/-- C10: the initial empty state of a fresh canvas is never snapshotted: after
    the first snapshot-pushing operation (the first `addNode`) `canUndo()` is
    still false, and therefore any number of `undo()` calls leaves the canvas
    fixed at the post-`addNode` state — the pre-first-operation empty state can
    never be restored. -/
theorem C10_first_snapshot_not_undoable (width height : ℚ) (node : DiagramNode) :
    ((DiagramCanvas.new width height).addNode node).canUndo = false ∧
    ∀ k : ℕ, (fun s => (DiagramCanvas.undo s).2)^[k]
        ((DiagramCanvas.new width height).addNode node) =
      (DiagramCanvas.new width height).addNode node := by
  refine ⟨rfl, fun k => Function.iterate_fixed rfl k⟩

/-- C4 counterexample: `selectNode` on a missing id still mutates the canvas.
    With node "a" selected, `selectNode("ghost")` finds no node "ghost" but has
    already cleared the selection: the selection set is emptied and node "a"'s
    `selected` flag is reset. -/
theorem C4_selectNode_missing_clears_selection :
    mget canvasSel.nodes "ghost" = none ∧
    canvasSel.selection.selectedNodes = ["a"] ∧
    (canvasSel.selectNode "ghost" false).selection.selectedNodes = [] ∧
    (mget canvasSel.nodes "a").map DiagramNode.selected = some true ∧
    (mget (canvasSel.selectNode "ghost" false).nodes "a").map DiagramNode.selected =
      some false := by
  decide

/-- C4 (amended): operations invoked with a missing node or connector id return
    a falsy/null result, never raise, and perform no mutation — except
    `selectNode`/`selectConnector`, which (with `multiSelect = false`) clear
    the prior selection before the lookup, so on a missing id they leave the
    canvas in its selection-cleared state rather than unchanged. -/
theorem C4_missing_id_operations (c : DiagramCanvas) (nodeId connectorId otherId : String)
    (position : Position) (side1 side2 : Option ConnectionSide) (freshId : String)
    (hn : mget c.nodes nodeId = none) (hc : mget c.connectors connectorId = none) :
    c.removeNode nodeId = (false, c) ∧
    c.moveNode nodeId position = (false, c) ∧
    c.updateNodeId nodeId otherId = (false, c) ∧
    c.deselectNode nodeId = c ∧
    c.selectNode nodeId true = c ∧
    c.selectNode nodeId false = c.clearSelection ∧
    c.createConnector nodeId otherId side1 side2 freshId = (none, c) ∧
    c.createConnector otherId nodeId side1 side2 freshId = (none, c) ∧
    c.removeConnector connectorId = (false, c) ∧
    c.updateConnectorId connectorId otherId = (false, c) ∧
    c.deselectConnector connectorId = c ∧
    c.selectConnector connectorId true = c ∧
    c.selectConnector connectorId false = c.clearSelection := by
  have hnb : mhas c.nodes nodeId = false := mhas_false_of_mget_none hn
  have hcb : mhas c.connectors connectorId = false := mhas_false_of_mget_none hc
  have hclr : mget c.clearSelection.nodes nodeId = none := by
    unfold DiagramCanvas.clearSelection
    exact mget_deselFold_none _ _ _ _ hn
  have hclrc : mget c.clearSelection.connectors connectorId = none := by
    unfold DiagramCanvas.clearSelection
    exact mget_deselFold_none _ _ _ _ hc
  refine ⟨?_, ?_, ?_, ?_, ?_, ?_, ?_, ?_, ?_, ?_, ?_, ?_, ?_⟩
  · simp [DiagramCanvas.removeNode, hn]
  · simp [DiagramCanvas.moveNode, hn]
  · simp [DiagramCanvas.updateNodeId, hn]
  · simp [DiagramCanvas.deselectNode, hn]
  · simp [DiagramCanvas.selectNode, hn]
  · simp [DiagramCanvas.selectNode, hclr]
  · simp [DiagramCanvas.createConnector, hn]
  · cases hx : mget c.nodes otherId <;> simp [DiagramCanvas.createConnector, hx, hn]
  · simp [DiagramCanvas.removeConnector, hcb]
  · simp [DiagramCanvas.updateConnectorId, hc]
  · simp [DiagramCanvas.deselectConnector, hc]
  · simp [DiagramCanvas.selectConnector, hc]
  · simp [DiagramCanvas.selectConnector, hclrc]

/-- C4 witness: the missing-id behavior applied to the concrete two-node canvas
    with the absent ids "ghost" (node) and "ghostc" (connector). -/
theorem C4_missing_id_operations_witness :
    mget canvasAB.nodes "ghost" = none ∧
    mget canvasAB.connectors "ghostc" = none ∧
    canvasAB.removeNode "ghost" = (false, canvasAB) ∧
    canvasAB.selectNode "ghost" false = canvasAB.clearSelection := by
  refine ⟨by decide, by decide, ?_, ?_⟩
  · exact (C4_missing_id_operations canvasAB "ghost" "ghostc" "x"
      { x := 0, y := 0 } none none "f" (by decide) (by decide)).1
  · exact (C4_missing_id_operations canvasAB "ghost" "ghostc" "x"
      { x := 0, y := 0 } none none "f" (by decide) (by decide)).2.2.2.2.2.1

/-- C3 counterexample: a successful `updateNodeId("a", "z")` migrates nothing
    in the overlay maps: the `logHighlights` and `logAnnotations` entries stay
    keyed by the old id "a" even though node "a" no longer exists. -/
theorem C3_updateNodeId_leaves_overlay_keys :
    (canvasHL.updateNodeId "a" "z").1 = true ∧
    mhas (canvasHL.updateNodeId "a" "z").2.nodes "z" = true ∧
    mhas (canvasHL.updateNodeId "a" "z").2.nodes "a" = false ∧
    ((canvasHL.updateNodeId "a" "z").2.logHighlights.map Prod.fst) = ["a"] ∧
    ((canvasHL.updateNodeId "a" "z").2.logAnnotations.map Prod.fst) = ["a"] := by
  decide

/-- C3 (amended): a successful `updateNodeId` migrates only the node selection
    set (log highlights and annotations are untouched); a successful
    `updateConnectorId` migrates the connector selection set and the
    `logHighlights` entry keyed by the old id, but never `logAnnotations`. -/
theorem C3_rename_migration (c : DiagramCanvas) (oldId newId : String) :
    ((mhas c.nodes oldId = true → mhas c.nodes newId = false →
      ((c.updateNodeId oldId newId).1 = true ∧
       (c.updateNodeId oldId newId).2.logHighlights = c.logHighlights ∧
       (c.updateNodeId oldId newId).2.logAnnotations = c.logAnnotations ∧
       (c.updateNodeId oldId newId).2.selection.selectedNodes =
         (if shas c.selection.selectedNodes oldId then
            sadd (sdel c.selection.selectedNodes oldId) newId
          else c.selection.selectedNodes)))) ∧
    (mhas c.connectors oldId = true → mhas c.connectors newId = false →
      ((c.updateConnectorId oldId newId).1 = true ∧
       (c.updateConnectorId oldId newId).2.logAnnotations = c.logAnnotations ∧
       (c.updateConnectorId oldId newId).2.selection.selectedConnectors =
         (if shas c.selection.selectedConnectors oldId then
            sadd (sdel c.selection.selectedConnectors oldId) newId
          else c.selection.selectedConnectors) ∧
       (mhas c.logHighlights oldId = false →
         (c.updateConnectorId oldId newId).2.logHighlights = c.logHighlights) ∧
       (mhas c.logHighlights oldId = true →
         (mget (c.updateConnectorId oldId newId).2.logHighlights newId =
            mget c.logHighlights oldId ∧
          mget (c.updateConnectorId oldId newId).2.logHighlights oldId = none)))) := by
  constructor
  · intro h1 h2
    obtain ⟨nd, hnd⟩ := Option.isSome_iff_exists.mp
      (by rw [← mhas_eq_isSome_mget]; exact h1)
    simp [DiagramCanvas.updateNodeId, hnd, h2,
      saveToHistory_logHighlights, saveToHistory_logAnnotations, saveToHistory_selection]
  · intro h1 h2
    obtain ⟨kc, hkc⟩ := Option.isSome_iff_exists.mp
      (by rw [← mhas_eq_isSome_mget]; exact h1)
    have hne : oldId ≠ newId := by
      intro hcontra
      rw [hcontra, h2] at h1
      cases h1
    simp only [DiagramCanvas.updateConnectorId, hkc, h2, Bool.false_eq_true, if_false,
      saveToHistory_logHighlights, saveToHistory_logAnnotations, saveToHistory_selection]
    refine ⟨by trivial, by trivial, by trivial, ?_, ?_⟩
    · intro hlh
      simp [hlh]
    · intro hlh
      obtain ⟨hv, hhv⟩ := Option.isSome_iff_exists.mp
        (by rw [← mhas_eq_isSome_mget]; exact hlh)
      simp only [hlh, if_true, hhv]
      constructor
      · rw [mget_mset_self]
      · rw [mget_mset_ne _ _ _ _ hne, mget_mdel_self]

/-- C6: when an endpoint-drag drop position lies inside no node's skirt-padded
    (±16) bounds, `handleEndpointDrop` deletes the dragged connector: the
    resulting connector map is exactly the old map with the dragged id removed,
    and the connector can no longer be retrieved — nothing restores the
    original `(side, offset)`. -/
theorem C6_drop_outside_skirt_deletes_connector (canvas : DiagramCanvas)
    (state : useEndpointDrag.EndpointDragState) (nodes : List DiagramNode)
    (mousePosition : Position) (connectorId : String)
    (endpointType : useEndpointDrag.EndpointKind)
    (hcid : state.connectorId = some connectorId)
    (hept : state.endpointType = some endpointType)
    (hmiss : ∀ node ∈ nodes,
      ¬ (mousePosition.x ≥ node.position.x - 16 ∧
         mousePosition.x ≤ node.position.x - 16 + (node.size.width + 16 * 2) ∧
         mousePosition.y ≥ node.position.y - 16 ∧
         mousePosition.y ≤ node.position.y - 16 + (node.size.height + 16 * 2))) :
    (useEndpointDrag.handleEndpointDrop canvas state nodes mousePosition).connectors =
      mdel canvas.connectors connectorId ∧
    (useEndpointDrag.handleEndpointDrop canvas state nodes
        mousePosition).getConnector connectorId = none := by
  have hfind : dragUtils.getNodeAtPosition nodes mousePosition = none := by
    unfold dragUtils.getNodeAtPosition
    rw [List.find?_eq_none]
    intro node hn
    simp only [decide_eq_true_eq]
    exact hmiss node hn
  cases hk : canvas.getConnector connectorId
  · have hmd : mdel canvas.connectors connectorId = canvas.connectors :=
      mdel_eq_self_of_mget_none hk
    refine ⟨?_, ?_⟩
    · simp only [useEndpointDrag.handleEndpointDrop, hcid, hept, hk, hmd]
    · simp only [useEndpointDrag.handleEndpointDrop, hcid, hept, hk]
  · rename_i k
    have hk2 : mget canvas.connectors connectorId = some k := hk
    have hhas : mhas canvas.connectors connectorId = true := by
      rw [mhas_eq_isSome_mget, hk2]
      rfl
    refine ⟨?_, ?_⟩
    · simp only [useEndpointDrag.handleEndpointDrop, hcid, hept,
        DiagramCanvas.getConnector, hk2, hfind, DiagramCanvas.removeConnector, hhas,
        if_true, saveToHistory_connectors]
    · simp only [useEndpointDrag.handleEndpointDrop, hcid, hept,
        DiagramCanvas.getConnector, hk2, hfind, DiagramCanvas.removeConnector, hhas,
        if_true, saveToHistory_connectors]
      exact mget_mdel_self _ _

/-- C6 witness: dropping connector "c1"'s end point at (1000, 1000), far from
    both concrete nodes, removes it from the canvas. -/
theorem C6_drop_outside_skirt_deletes_connector_witness :
    dragStateC1End.connectorId = some "c1" ∧
    (useEndpointDrag.handleEndpointDrop canvasABC1 dragStateC1End [nodeA, nodeB]
        { x := 1000, y := 1000 }).getConnector "c1" = none := by
  refine ⟨rfl, ?_⟩
  exact (C6_drop_outside_skirt_deletes_connector canvasABC1 dragStateC1End
    [nodeA, nodeB] { x := 1000, y := 1000 } "c1" useEndpointDrag.EndpointKind.endPt
    rfl rfl (by
      intro node hn
      rcases List.mem_cons.mp hn with rfl | hn2
      · norm_num [nodeA, DiagramNode.new]
      · rcases List.mem_cons.mp hn2 with rfl | hn3
        · norm_num [nodeB, DiagramNode.new]
        · cases hn3)).2

/-- C8: `applyLogActions` first clears all prior highlights and annotations
    (the result is the same as on a canvas whose overlay maps were already
    cleared); `processLogAction` normalizes a single id to a one-element array
    and passes an id array through; a `"success"` style maps to #22c55e; the
    animation flag holds exactly for `pulse`/`trace` kinds (hence not for
    `highlight`); an absent or unrecognized style keyword yields the default
    blue #3b82f6; and the scenario `[{id:[...], action:highlight,
    style:"success"}]` maps every target id to the green, non-animated style. -/
theorem C8_applyLogActions_spec (c : DiagramCanvas) (actions : List LogAction)
    (action : LogAction) (single : String) (many : List String)
    (ids : List String) (i : String) :
    (c.applyLogActions actions =
       (c.clearLogHighlights.clearLogAnnotations).applyLogActions actions) ∧
    ((DiagramCanvas.processLogAction { action with id := Sum.inl single }).targetIds =
       [single]) ∧
    ((DiagramCanvas.processLogAction { action with id := Sum.inr many }).targetIds =
       many) ∧
    (action.style = some "success" →
      (DiagramCanvas.processLogAction action).highlightStyle.color = some "#22c55e") ∧
    ((DiagramCanvas.processLogAction action).highlightStyle.animation = true ↔
      (action.action = LogActionKind.pulse ∨ action.action = LogActionKind.trace)) ∧
    ((∀ s, action.style = some s → s ∉ knownLogStyles) →
      (DiagramCanvas.processLogAction action).highlightStyle.color = some "#3b82f6") ∧
    (i ∈ ids →
      mget (c.applyLogActions
          [{ id := Sum.inr ids, action := LogActionKind.highlight,
             style := some "success" }]).logHighlights i =
        some { type := LogActionKind.highlight, style := some "success",
               color := some "#22c55e", animation := false }) := by
  refine ⟨rfl, rfl, rfl, ?_, ?_, ?_, ?_⟩
  · intro h
    simp only [DiagramCanvas.processLogAction, h]
  · simp only [DiagramCanvas.processLogAction, decide_eq_true_eq]
  · intro h
    cases hs : action.style with
    | none => simp only [DiagramCanvas.processLogAction, hs]
    | some s =>
      have hmem := h s hs
      simp only [knownLogStyles, List.mem_cons, List.not_mem_nil, or_false, not_or] at hmem
      obtain ⟨h1, h2, h3, h4, h5, h6, h7⟩ := hmem
      simp only [DiagramCanvas.processLogAction, hs]
      split
      all_goals simp_all
  · intro hmem
    exact mget_applyActionTo_fold _ _ ids _ i hmem

/-- C8 witness: the log-action pipeline evaluated at the concrete scenario
    `applyLogActions([{id:["n1","n2"], action:"highlight", style:"success"}])`
    on the two-node canvas. -/
theorem C8_applyLogActions_spec_witness :
    "n1" ∈ ["n1", "n2"] ∧
    mget (canvasAB.applyLogActions
        [{ id := Sum.inr ["n1", "n2"], action := LogActionKind.highlight,
           style := some "success" }]).logHighlights "n1" =
      some { type := LogActionKind.highlight, style := some "success",
             color := some "#22c55e", animation := false } := by
  refine ⟨by decide, ?_⟩
  exact (C8_applyLogActions_spec canvasAB []
    { id := Sum.inl "x", action := LogActionKind.highlight } "x" []
    ["n1", "n2"] "n1").2.2.2.2.2.2 (by decide)

/-- C9: for a node of strictly positive width and height and each of the four
    sides, `calculateConnectionPoint(position, size, side, 0.5)` followed by
    the endpoint-drag quadrant mapping recovers exactly the original side and
    the offset 1/2. -/
theorem C9_midpoint_roundtrip (node : DiagramNode)
    (hw : 0 < node.size.width) (hh : 0 < node.size.height) (side : ConnectionSide) :
    useEndpointDrag.calculateConnectionPoint node
      (ConnectionUtils.calculateConnectionPoint node.position node.size side (1/2)) =
      (side, 1/2) := by
  have hw0 : node.size.width ≠ 0 := ne_of_gt hw
  have hh0 : node.size.height ≠ 0 := ne_of_gt hh
  cases side
  case top =>
    unfold ConnectionUtils.calculateConnectionPoint useEndpointDrag.calculateConnectionPoint
    dsimp only
    rw [show node.position.x + node.size.width * (1/2) -
          (node.position.x + node.size.width / 2) = 0 from by ring]
    rw [show node.position.y - (node.position.y + node.size.height / 2) =
          -(node.size.height / 2) from by ring]
    rw [abs_zero, abs_neg, abs_of_pos (half_pos hh)]
    rw [if_neg (not_lt.mpr (half_pos hh).le)]
    rw [if_neg (not_lt.mpr (neg_nonpos.mpr (half_pos hh).le))]
    rw [show node.position.x + node.size.width * (1/2) - node.position.x =
          node.size.width * (1/2) from by ring]
    rw [show node.size.width * (1/2) / node.size.width = 1/2 from by field_simp; ring]
    norm_num
  case right =>
    unfold ConnectionUtils.calculateConnectionPoint useEndpointDrag.calculateConnectionPoint
    dsimp only
    rw [show node.position.x + node.size.width -
          (node.position.x + node.size.width / 2) = node.size.width / 2 from by ring]
    rw [show node.position.y + node.size.height * (1/2) -
          (node.position.y + node.size.height / 2) = 0 from by ring]
    rw [abs_zero, abs_of_pos (half_pos hw)]
    rw [if_pos (half_pos hw)]
    rw [if_pos (half_pos hw)]
    rw [show node.position.y + node.size.height * (1/2) - node.position.y =
          node.size.height * (1/2) from by ring]
    rw [show node.size.height * (1/2) / node.size.height = 1/2 from by field_simp; ring]
    norm_num
  case bottom =>
    unfold ConnectionUtils.calculateConnectionPoint useEndpointDrag.calculateConnectionPoint
    dsimp only
    rw [show node.position.x + node.size.width * (1/2) -
          (node.position.x + node.size.width / 2) = 0 from by ring]
    rw [show node.position.y + node.size.height -
          (node.position.y + node.size.height / 2) = node.size.height / 2 from by ring]
    rw [abs_zero, abs_of_pos (half_pos hh)]
    rw [if_neg (not_lt.mpr (half_pos hh).le)]
    rw [if_pos (half_pos hh)]
    rw [show node.position.x + node.size.width * (1/2) - node.position.x =
          node.size.width * (1/2) from by ring]
    rw [show node.size.width * (1/2) / node.size.width = 1/2 from by field_simp; ring]
    norm_num
  case left =>
    unfold ConnectionUtils.calculateConnectionPoint useEndpointDrag.calculateConnectionPoint
    dsimp only
    rw [show node.position.x - (node.position.x + node.size.width / 2) =
          -(node.size.width / 2) from by ring]
    rw [show node.position.y + node.size.height * (1/2) -
          (node.position.y + node.size.height / 2) = 0 from by ring]
    rw [abs_zero, abs_neg, abs_of_pos (half_pos hw)]
    rw [if_pos (half_pos hw)]
    rw [if_neg (not_lt.mpr (neg_nonpos.mpr (half_pos hw).le))]
    rw [show node.position.y + node.size.height * (1/2) - node.position.y =
          node.size.height * (1/2) from by ring]
    rw [show node.size.height * (1/2) / node.size.height = 1/2 from by field_simp; ring]
    norm_num

/-- C9 witness: the round-trip evaluated at the concrete 120×60 node for the
    `top` side. -/
theorem C9_midpoint_roundtrip_witness :
    (0 : ℚ) < nodeA.size.width ∧ (0 : ℚ) < nodeA.size.height ∧
    useEndpointDrag.calculateConnectionPoint nodeA
      (ConnectionUtils.calculateConnectionPoint nodeA.position nodeA.size
        ConnectionSide.top (1/2)) = (ConnectionSide.top, 1/2) := by
  refine ⟨by norm_num [nodeA, DiagramNode.new], by norm_num [nodeA, DiagramNode.new], ?_⟩
  exact C9_midpoint_roundtrip nodeA (by norm_num [nodeA, DiagramNode.new])
    (by norm_num [nodeA, DiagramNode.new]) ConnectionSide.top

/-- C7: `fromJSON` applied to `toJSON`'s output reproduces exactly N nodes and
    M connectors, with identical map keys, entity ids, node positions, and
    connector endpoint `(nodeId, side, offset)` descriptors (the import's final
    `clearSelection` can only reset `selected` flags, which the claim does not
    cover). -/
theorem C7_toJSON_fromJSON_roundtrip (c target : DiagramCanvas)
    (hn : (c.nodes.map Prod.fst).Nodup) (hk : (c.connectors.map Prod.fst).Nodup) :
    ((target.fromJSON c.toJSON).nodes.length = c.nodes.length) ∧
    ((target.fromJSON c.toJSON).connectors.length = c.connectors.length) ∧
    ((target.fromJSON c.toJSON).nodes.map (fun e => (e.1, e.2.id, e.2.position)) =
       c.nodes.map (fun e => (e.1, e.2.id, e.2.position))) ∧
    ((target.fromJSON c.toJSON).connectors.map (fun e =>
        (e.1, e.2.id, e.2.startPoint.nodeId, e.2.startPoint.side, e.2.startPoint.offset,
         e.2.endPoint.nodeId, e.2.endPoint.side, e.2.endPoint.offset)) =
       c.connectors.map (fun e =>
        (e.1, e.2.id, e.2.startPoint.nodeId, e.2.startPoint.side, e.2.startPoint.offset,
         e.2.endPoint.nodeId, e.2.endPoint.side, e.2.endPoint.offset))) := by
  have h1 : (target.fromJSON c.toJSON).nodes =
      target.selection.selectedNodes.foldl
        (DiagramCanvas.deselectPass DiagramNode.deselect) c.nodes := by
    simp only [DiagramCanvas.fromJSON, DiagramCanvas.toJSON, saveToHistory_nodes,
      DiagramCanvas.clearSelection, rebuildNode_eq]
    rw [foldl_mset_eq_append c.nodes [] (fun e _ => rfl) hn, List.nil_append]
  have h2 : (target.fromJSON c.toJSON).connectors =
      target.selection.selectedConnectors.foldl
        (DiagramCanvas.deselectPass DiagramConnector.deselect) c.connectors := by
    simp only [DiagramCanvas.fromJSON, DiagramCanvas.toJSON, saveToHistory_connectors,
      DiagramCanvas.clearSelection, rebuildConnector_eq]
    rw [foldl_mset_eq_append c.connectors [] (fun e _ => rfl) hk, List.nil_append]
  have hpn := deselFold_proj DiagramNode.deselect
    (fun e => (e.1, e.2.id, e.2.position)) (fun k v => rfl)
    target.selection.selectedNodes c.nodes hn
  have hpk := deselFold_proj DiagramConnector.deselect
    (fun e => (e.1, e.2.id, e.2.startPoint.nodeId, e.2.startPoint.side,
       e.2.startPoint.offset, e.2.endPoint.nodeId, e.2.endPoint.side,
       e.2.endPoint.offset)) (fun k v => rfl)
    target.selection.selectedConnectors c.connectors hk
  refine ⟨?_, ?_, ?_, ?_⟩
  · calc (target.fromJSON c.toJSON).nodes.length
        = ((target.fromJSON c.toJSON).nodes.map Prod.fst).length := by
          rw [List.length_map]
      _ = (c.nodes.map Prod.fst).length := by rw [h1, hpn.2]
      _ = c.nodes.length := by rw [List.length_map]
  · calc (target.fromJSON c.toJSON).connectors.length
        = ((target.fromJSON c.toJSON).connectors.map Prod.fst).length := by
          rw [List.length_map]
      _ = (c.connectors.map Prod.fst).length := by rw [h2, hpk.2]
      _ = c.connectors.length := by rw [List.length_map]
  · rw [h1]
    exact hpn.1
  · rw [h2]
    exact hpk.1

/-- C7 witness: the round-trip evaluated on the concrete two-node one-connector
    canvas imported into a fresh canvas. -/
theorem C7_toJSON_fromJSON_roundtrip_witness :
    (canvasABC1.nodes.map Prod.fst).Nodup ∧
    (canvasABC1.connectors.map Prod.fst).Nodup ∧
    (canvas0.fromJSON canvasABC1.toJSON).nodes.length = canvasABC1.nodes.length ∧
    (canvas0.fromJSON canvasABC1.toJSON).connectors.length =
      canvasABC1.connectors.length := by
  refine ⟨by decide, by decide, ?_, ?_⟩
  · exact (C7_toJSON_fromJSON_roundtrip canvasABC1 canvas0 (by decide) (by decide)).1
  · exact (C7_toJSON_fromJSON_roundtrip canvasABC1 canvas0 (by decide) (by decide)).2.1

/-- C3 witness: the migration behavior applied to the concrete highlighted
    canvas (node rename "a" → "z", where "a" exists and "z" does not). -/
theorem C3_rename_migration_witness :
    mhas canvasHL.nodes "a" = true ∧
    mhas canvasHL.nodes "z" = false ∧
    (canvasHL.updateNodeId "a" "z").2.logHighlights = canvasHL.logHighlights := by
  refine ⟨by decide, by decide, ?_⟩
  exact ((C3_rename_migration canvasHL "a" "z").1 (by decide) (by decide)).2.1

end Unblind
